import Mathlib

/-!
Verification of the fanotify crate's event-record codec, permission-response
protocol, and group-configuration codec.

The definitions in this file are a shallow embedding of the Rust sources:

* `src/mark/mask.rs`            — the event-mask bitset (`Mask`)
* `src/init/*.rs`               — the structured/raw group configuration
  (`Init`, `RawInit`) and its codec (`as_raw` / `undo_raw`)
* `src/event/iterator.rs`       — the record decoder (`EventIterator::next_unchecked`)
* `src/event/responses.rs`      — the response channel (`Responses`)
* `src/event/file/permission.rs`— decisions (`FilePermission`)
* `src/common.rs`               — the descriptor wrapper (`FD::read`, `FD::write`)
* `src/event/events.rs`         — `Events::read`

Machine integers are modelled as `Nat` (unsigned) and `Int` (signed), with
explicit truncation where the source relies on fixed-width behaviour.  Byte
buffers are `List Nat` with each element one byte.  Calls into the operating
system are modelled by explicit oracle parameters together with a `Bool`
recording whether the oracle was consulted.
-/

namespace Fanotify

/-- Decidable equality for `Except`, used to evaluate decoder results on
concrete inputs. -/
instance {ε α : Type} [DecidableEq ε] [DecidableEq α] :
    DecidableEq (Except ε α)
  | .ok x, .ok y =>
    if h : x = y then .isTrue (h ▸ rfl)
    else .isFalse (fun hh => h (Except.ok.inj hh))
  | .error x, .error y =>
    if h : x = y then .isTrue (h ▸ rfl)
    else .isFalse (fun hh => h (Except.error.inj hh))
  | .ok _, .error _ => .isFalse (fun hh => Except.noConfusion hh)
  | .error _, .ok _ => .isFalse (fun hh => Except.noConfusion hh)

/-! ## Byte-level primitives

The decoder in `src/event/iterator.rs` reinterprets raw bytes at a cursor as
repr(C) structs.  On x86-64 the relevant layouts are:

`fanotify_event_metadata` (24 bytes):
  `event_len : u32` at 0, `vers : u8` at 4, `reserved : u8` at 5,
  `metadata_len : u16` at 6, `mask : u64` at 8, `fd : i32` at 16,
  `pid : i32` at 20.

`fanotify_event_info_fid` (at offset 24 of the record):
  header `info_type : u8` at 24, `pad : u8` at 25, `len : u16` at 26,
  `fsid : fsid_t` (two 32-bit words) at 28, the opaque file handle at 36.

All multi-byte fields are little-endian.
-/

/-- Read one byte at index `i` (missing bytes read as 0; every read the
decoder performs is behind an explicit bounds check, mirroring the source). -/
def readU8 (l : List Nat) (i : Nat) : Nat :=
  l.getD i 0

/-- Read a little-endian 16-bit value at index `i`. -/
def readU16 (l : List Nat) (i : Nat) : Nat :=
  readU8 l i + 2 ^ 8 * readU8 l (i + 1)

/-- Read a little-endian 32-bit value at index `i`. -/
def readU32 (l : List Nat) (i : Nat) : Nat :=
  readU8 l i + 2 ^ 8 * readU8 l (i + 1) + 2 ^ 16 * readU8 l (i + 2) +
    2 ^ 24 * readU8 l (i + 3)

/-- Read a little-endian 64-bit value at index `i`. -/
def readU64 (l : List Nat) (i : Nat) : Nat :=
  readU32 l i + 2 ^ 32 * readU32 l (i + 4)

/-- Reinterpret an unsigned 32-bit value as a signed `i32` (two's complement). -/
def toI32 (n : Nat) : Int :=
  if n < 2 ^ 31 then (n : Int) else (n : Int) - 2 ^ 32

/-- Little-endian bytes of a 16-bit value. -/
def encU16 (n : Nat) : List Nat :=
  [n % 2 ^ 8, n / 2 ^ 8 % 2 ^ 8]

/-- Little-endian bytes of a 32-bit value. -/
def encU32 (n : Nat) : List Nat :=
  [n % 2 ^ 8, n / 2 ^ 8 % 2 ^ 8, n / 2 ^ 16 % 2 ^ 8, n / 2 ^ 24 % 2 ^ 8]

/-- Little-endian bytes of a 64-bit value. -/
def encU64 (n : Nat) : List Nat :=
  encU32 (n % 2 ^ 32) ++ encU32 (n / 2 ^ 32 % 2 ^ 32)

/-- Little-endian bytes of an `i32` value (two's complement). -/
def encI32 (i : Int) : List Nat :=
  encU32 (i % (2 ^ 32 : Int)).toNat

/-! ## Mask bits — `src/libc.rs` (`mark::mask`) and `src/mark/mask.rs` -/

def FAN_ACCESS : Nat := 0x00000001
def FAN_MODIFY : Nat := 0x00000002
def FAN_ATTRIB : Nat := 0x00000004
def FAN_CLOSE_WRITE : Nat := 0x00000008
def FAN_CLOSE_NOWRITE : Nat := 0x00000010
def FAN_OPEN : Nat := 0x00000020
def FAN_MOVED_FROM : Nat := 0x00000040
def FAN_MOVED_TO : Nat := 0x00000080
def FAN_CREATE : Nat := 0x00000100
def FAN_DELETE : Nat := 0x00000200
def FAN_DELETE_SELF : Nat := 0x00000400
def FAN_MOVE_SELF : Nat := 0x00000800
def FAN_OPEN_EXEC : Nat := 0x00001000
def FAN_Q_OVERFLOW : Nat := 0x00004000
def FAN_OPEN_PERM : Nat := 0x00010000
def FAN_ACCESS_PERM : Nat := 0x00020000
def FAN_OPEN_EXEC_PERM : Nat := 0x00040000
def FAN_EVENT_ON_CHILD : Nat := 0x08000000
def FAN_ONDIR : Nat := 0x40000000

namespace Mask

/-- Union of every bit named in the `bitflags!` block of `src/mark/mask.rs`;
`from_bits_truncate` keeps exactly these bits. -/
def allBits : Nat :=
  FAN_ACCESS ||| FAN_OPEN ||| FAN_OPEN_EXEC ||| FAN_CLOSE_NOWRITE |||
  FAN_CLOSE_WRITE ||| FAN_MODIFY ||| FAN_ATTRIB ||| FAN_CREATE |||
  FAN_DELETE ||| FAN_DELETE_SELF ||| FAN_MOVED_FROM ||| FAN_MOVED_TO |||
  FAN_MOVE_SELF ||| FAN_ACCESS_PERM ||| FAN_OPEN_PERM |||
  FAN_OPEN_EXEC_PERM ||| FAN_ONDIR ||| FAN_EVENT_ON_CHILD

/-- `Mask::from_bits_truncate`: unknown bits are discarded. -/
def fromBitsTruncate (bits : Nat) : Nat :=
  bits &&& allBits

/-- The `bitflags` `contains` operation: every bit of `other` is set in `self`. -/
def contains (self other : Nat) : Prop :=
  self &&& other = other

instance (self other : Nat) : Decidable (contains self other) := by
  unfold contains; infer_instance

/-- `Mask::all_permissions()` from `src/mark/mask.rs` lines 69–75. -/
def all_permissions : Nat :=
  FAN_ACCESS_PERM ||| FAN_OPEN_PERM ||| FAN_OPEN_EXEC_PERM

/-- `Mask::includes_permission()` from `src/mark/mask.rs` lines 77–79:
`self.contains(Self::all_permissions())`.  Note that the `bitflags`
`contains` tests that ALL bits of the argument are present. -/
def includes_permission (self : Nat) : Prop :=
  contains self all_permissions

instance (self : Nat) : Decidable (includes_permission self) := by
  unfold includes_permission; infer_instance

end Mask

/-! ## Group configuration — `src/init/*.rs`

`Init` is the structured form; `RawInit` packs it into the two `u32`
arguments of `fanotify_init`.  `bitflags` structs hold their raw bits, so
`Flags` and `EventFlags` values are modelled as the bit patterns themselves;
a value produced by `from_bits_truncate` satisfies `bits &&& all = bits`.
-/

def FAN_CLOEXEC : Nat := 0x00000001
def FAN_NONBLOCK : Nat := 0x00000002
def FAN_CLASS_NOTIF : Nat := 0x00000000
def FAN_CLASS_CONTENT : Nat := 0x00000004
def FAN_CLASS_PRE_CONTENT : Nat := 0x00000008
def FAN_UNLIMITED_QUEUE : Nat := 0x00000010
def FAN_UNLIMITED_MARKS : Nat := 0x00000020
def FAN_REPORT_TID : Nat := 0x00000100
def FAN_REPORT_FID : Nat := 0x00000200
def FAN_REPORT_DIR_FID : Nat := 0x00000400
def FAN_REPORT_NAME : Nat := 0x00000800

/-- The `open(2)` flags named in `src/init/rw.rs` and
`src/init/event_flags.rs`, with their values on linux x86-64
(`O_LARGEFILE` is 0 on this target). -/
def O_RDONLY : Nat := 0
def O_WRONLY : Nat := 1
def O_RDWR : Nat := 2
def O_LARGEFILE : Nat := 0
def O_CLOEXEC : Nat := 0x80000
def O_APPEND : Nat := 0x400
def O_DSYNC : Nat := 0x1000
def O_SYNC : Nat := 0x101000
def O_NOATIME : Nat := 0x40000
def O_NONBLOCK : Nat := 0x800

/-- `NotificationClass` from `src/init/notification_class.rs`. -/
inductive NotificationClass where
  | PreContent
  | Content
  | Notify
deriving DecidableEq, Repr

/-- The `repr(u32)` discriminants of `NotificationClass`. -/
def NotificationClass.bits : NotificationClass → Nat
  | .PreContent => FAN_CLASS_PRE_CONTENT
  | .Content => FAN_CLASS_CONTENT
  | .Notify => FAN_CLASS_NOTIF

/-- `ReadWrite` from `src/init/rw.rs`. -/
inductive ReadWrite where
  | Read
  | Write
  | ReadAndWrite
deriving DecidableEq, Repr

/-- The `repr(u32)` discriminants of `ReadWrite`. -/
def ReadWrite.bits : ReadWrite → Nat
  | .Read => O_RDONLY
  | .Write => O_WRONLY
  | .ReadAndWrite => O_RDWR

namespace Flags

/-- Union of the bits named in the `bitflags!` block of `src/init/flags.rs`. -/
def allBits : Nat :=
  FAN_CLOEXEC ||| FAN_NONBLOCK ||| FAN_UNLIMITED_QUEUE |||
  FAN_UNLIMITED_MARKS ||| FAN_REPORT_TID ||| FAN_REPORT_FID |||
  FAN_REPORT_DIR_FID ||| FAN_REPORT_NAME

/-- `init::Flags::from_bits_truncate`. -/
def fromBitsTruncate (bits : Nat) : Nat :=
  bits &&& allBits

/-- The `bitflags` `contains` test for a single named flag. -/
def containsBit (self flag : Nat) : Prop :=
  self &&& flag = flag

instance (self flag : Nat) : Decidable (containsBit self flag) := by
  unfold containsBit; infer_instance

end Flags

namespace EventFlags

/-- Union of the bits named in the `bitflags!` block of
`src/init/event_flags.rs`. -/
def allBits : Nat :=
  O_LARGEFILE ||| O_CLOEXEC ||| O_APPEND ||| O_DSYNC ||| O_SYNC |||
  O_NOATIME ||| O_NONBLOCK

/-- `init::EventFlags::from_bits_truncate`. -/
def fromBitsTruncate (bits : Nat) : Nat :=
  bits &&& allBits

end EventFlags

/-- The structured configuration, `Init` from `src/init/init.rs`.  The two
bitset fields hold the raw bits of the corresponding `bitflags` structs. -/
structure Init where
  notification_class : NotificationClass
  flags : Nat
  rw : ReadWrite
  event_flags : Nat
deriving DecidableEq, Repr

/-- A structurally valid `Init`: its bitset fields only hold bits their
`bitflags` structs define (every value built through the crate's `Flags` /
`EventFlags` constructors satisfies this). -/
def Init.valid (i : Init) : Prop :=
  i.flags &&& Flags.allBits = i.flags ∧
  i.event_flags &&& EventFlags.allBits = i.event_flags

instance (i : Init) : Decidable i.valid := by
  unfold Init.valid; infer_instance

/-- The packed configuration, `RawInit` from `src/init/raw.rs`. -/
structure RawInit where
  flags : Nat
  event_flags : Nat
deriving DecidableEq, Repr

/-- `Init::flags()` from `src/init/raw.rs` lines 34–36:
`self.notification_class as u32 | self.flags.bits()`. -/
def Init.rawFlags (i : Init) : Nat :=
  i.notification_class.bits ||| i.flags

/-- `Init::event_flags()` from `src/init/raw.rs` lines 38–40:
`self.rw as u32 | self.event_flags.bits()`. -/
def Init.rawEventFlags (i : Init) : Nat :=
  i.rw.bits ||| i.event_flags

/-- `Init::as_raw()` from `src/init/raw.rs` lines 42–48. -/
def Init.as_raw (i : Init) : RawInit :=
  { flags := i.rawFlags, event_flags := i.rawEventFlags }

/-- The four-element lookup table of `RawInit::notification_class()`. -/
def ncTable : List NotificationClass :=
  [.Notify, .Content, .PreContent, .Notify]

/-- The index used by `RawInit::notification_class()`:
`((self.flags & 0b1111) >> 2) as usize`. -/
def RawInit.ncIndex (r : RawInit) : Nat :=
  (r.flags &&& 0b1111) >>> 2

/-- `RawInit::notification_class()` from `src/init/raw.rs` lines 51–67.
The Rust code indexes a fixed four-element array; the index is at most 3,
so the lookup never leaves the table (`ncTable_index_lt` below), and the
`getD` default is never consulted. -/
def RawInit.notification_class (r : RawInit) : NotificationClass :=
  ncTable.getD r.ncIndex .Notify

/-- `RawInit::flags()` from `src/init/raw.rs` lines 69–72:
`Flags::from_bits_truncate(self.flags & !0b1100)`.  `!0b1100u32` is
`0xFFFFFFF3`. -/
def RawInit.structuredFlags (r : RawInit) : Nat :=
  Flags.fromBitsTruncate (r.flags &&& 0xFFFFFFF3)

/-- The four-element lookup table of `RawInit::rw()`. -/
def rwTable : List ReadWrite :=
  [.Read, .Write, .ReadAndWrite, .Read]

/-- The index used by `RawInit::rw()`: `(self.event_flags & 0b11) as usize`. -/
def RawInit.rwIndex (r : RawInit) : Nat :=
  r.event_flags &&& 0b11

/-- `RawInit::rw()` from `src/init/raw.rs` lines 74–85. -/
def RawInit.rw (r : RawInit) : ReadWrite :=
  rwTable.getD r.rwIndex .Read

/-- `RawInit::event_flags()` from `src/init/raw.rs` lines 87–90:
`EventFlags::from_bits_truncate(self.event_flags & !0b11)`. -/
def RawInit.structuredEventFlags (r : RawInit) : Nat :=
  EventFlags.fromBitsTruncate (r.event_flags &&& 0xFFFFFFFC)

/-- `RawInit::undo_raw()` from `src/init/raw.rs` lines 92–99. -/
def RawInit.undo_raw (r : RawInit) : Init :=
  { notification_class := r.notification_class
    flags := r.structuredFlags
    rw := r.rw
    event_flags := r.structuredEventFlags }

/-! ## Error taxonomy — `src/event/error.rs` -/

/-- The kernel error codes the modelled paths can produce. -/
inductive Errno where
  | EAGAIN
  | other (code : Nat)
deriving DecidableEq, Repr

/-- `TooShortError` from `src/event/error.rs`. -/
inductive TooShortWhat where
  | EventLenField
  | FullEvent
  | BaseEvent
  | BaseAndFidEvent
  | FidEvent
deriving DecidableEq, Repr

/-- `EventError` from `src/event/error.rs`.  `TooShort` carries the `what`,
`found`, and `expected` fields of the Rust variant; `InvalidFd` carries the
raw descriptor value; `InvalidFidInfoType` carries the unrecognized tag. -/
inductive EventError where
  | QueueOverflowed
  | WrongVersion
  | TooShort (what : TooShortWhat) (found : Nat) (expected : Nat)
  | UnlimitedQueueButQueueStillOverflowed
  | FidRequestedButNotReceived
  | FidNotRequestedButReceived
  | FidReturnedForPermissionEvent
  | InvalidFidInfoType (info_type : Nat)
  | InvalidFd (fd : Int)
deriving DecidableEq, Repr

/-! ## Event data model — `src/event/id.rs`, `src/event/file/*.rs`,
`src/event/event.rs` -/

/-- `Id` from `src/event/id.rs`: a pid or a tid, depending on whether the
group was opened with `REPORT_TID`. -/
inductive Id where
  | Pid (v : Int)
  | Tid (v : Int)
deriving DecidableEq, Repr

/-- `EventId` from `src/event/id.rs`. -/
structure EventId where
  is_generated_by_self : Bool
  id : Id
deriving DecidableEq, Repr

/-- `InfoType` from `src/event/file/fid.rs`. -/
inductive InfoType where
  | Fid
  | DFidName
  | DFid
deriving DecidableEq, Repr

/-- `InfoType::try_from(u8)` from `src/event/file/fid.rs`: 1, 2 and 3 are
recognized, anything else is returned as the error. -/
def InfoType.tryFrom (value : Nat) : Except Nat InfoType :=
  if value = 1 then .ok .Fid
  else if value = 2 then .ok .DFidName
  else if value = 3 then .ok .DFid
  else .error value

/-- `PermissionDecision` from `src/event/file/permission.rs`; defaults to
`Allow`. -/
inductive PermissionDecision where
  | Allow
  | Deny
deriving DecidableEq, Repr

/-- `u32::from(PermissionDecision)`: `FAN_ALLOW = 1`, `FAN_DENY = 2`. -/
def PermissionDecision.bits : PermissionDecision → Nat
  | .Allow => 0x01
  | .Deny => 0x02

def FAN_AUDIT : Nat := 0x10

/-- `RawFilePermission` from `src/event/file/permission.rs`. -/
structure RawFilePermission where
  fd : Int
  decision : PermissionDecision
  audit : Bool
deriving DecidableEq, Repr

/-- `fanotify_response` from `src/libc.rs` (`write` module): an `i32`
descriptor followed by a `u32` response word. -/
structure FanotifyResponse where
  fd : Int
  response : Nat
deriving DecidableEq, Repr

/-- `From<&RawFilePermission> for fanotify_response`
(`src/event/file/permission.rs` lines 72–81):
`response = decision | audit as u32 * FAN_AUDIT`. -/
def RawFilePermission.toResponse (r : RawFilePermission) : FanotifyResponse :=
  { fd := r.fd
    response := r.decision.bits ||| (if r.audit then 1 else 0) * FAN_AUDIT }

/-- `fanotify_response::as_bytes` (`src/event/responses.rs` lines 16–32):
the 8-byte repr(C) layout, an `i32` then a `u32`, both little-endian. -/
def FanotifyResponse.bytes (r : FanotifyResponse) : List Nat :=
  encI32 r.fd ++ encU32 r.response

/-- `FilePermission` from `src/event/file/permission.rs` (the shared
`Responses` handle is represented externally by threading the response
buffer through the operations). -/
structure FilePermission where
  fd : Int
  decision : PermissionDecision
  audit : Bool
  written : Bool
deriving DecidableEq, Repr

/-- `FilePermission::new` from `src/event/file/permission.rs` lines 119–128:
decision defaults to `Allow`, `audit` and `written` start out false. -/
def FilePermission.new (fd : Int) : FilePermission :=
  { fd := fd, decision := .Allow, audit := false, written := false }

/-- `FilePermission::response()` from `src/event/file/permission.rs`
lines 143–149. -/
def FilePermission.response (p : FilePermission) : RawFilePermission :=
  { fd := p.fd, decision := p.decision, audit := p.audit }

/-- `File` from `src/event/file/mod.rs`: the three payload variants.  The
`FID` variant carries the decoded info type, the two 32-bit words of the
filesystem id, and the opaque handle bytes (the borrowed trailing bytes of
the record).  The `Permission` variant carries the freshly constructed
`FilePermission`. -/
inductive File where
  | FD (fd : Int)
  | FID (info_type : InfoType) (fsid : Nat × Nat) (handle : List Nat)
  | Permission (p : FilePermission)
deriving DecidableEq, Repr

/-- `Event` from `src/event/event.rs`: the truncated mask, the event id and
the file payload. -/
structure Event where
  mask : Nat
  id : EventId
  file : File
deriving DecidableEq, Repr

/-! ## Response channel — `src/event/responses.rs` -/

/-- `Responses::write_immediately` (`src/event/responses.rs` lines 159–166).
`osWrite` models the underlying `FD::write` of the 8 response bytes: it is
given the bytes and reports either an errno or the number of bytes written.
The source checks `match bytes_written { 0 => Ok(()), _ => Err(EAGAIN) }`. -/
def Responses.write_immediately (osWrite : List Nat → Except Errno Nat)
    (response : RawFilePermission) : Except Errno Unit :=
  match osWrite response.toResponse.bytes with
  | .error e => .error e
  | .ok bytes_written =>
    match bytes_written with
    | 0 => .ok ()
    | _ + 1 => .error .EAGAIN

/-- `Responses::write_buffered` (`src/event/responses.rs` lines 169–171),
which appends the 8 serialized bytes to the shared response buffer
(`ResponseBuffer::add`). -/
def Responses.write_buffered (buffer : List Nat)
    (response : RawFilePermission) : List Nat :=
  buffer ++ response.toResponse.bytes

/-- `FilePermission::write_buffered` (`src/event/file/permission.rs`
lines 166–173).  Returns whether the response was written now, the updated
permission object, and the updated response buffer. -/
def FilePermission.write_buffered (p : FilePermission) (buffer : List Nat) :
    Bool × FilePermission × List Nat :=
  if p.written then (false, p, buffer)
  else (true, { p with written := true },
        Responses.write_buffered buffer p.response)

/-- `FilePermission::write_immediately` (`src/event/file/permission.rs`
lines 154–161).  The extra `Bool` in the result records whether the
descriptor write was attempted at all. -/
def FilePermission.write_immediately (p : FilePermission)
    (osWrite : List Nat → Except Errno Nat) :
    Except Errno Bool × FilePermission × Bool :=
  if p.written then (.ok false, p, false)
  else
    match Responses.write_immediately osWrite p.response with
    | .error e => (.error e, p, true)
    | .ok () => (.ok true, { p with written := true }, true)

/-- `impl Drop for FilePermission` (`src/event/file/permission.rs`
lines 177–181): dropping calls `write_buffered`, discarding its result.
Returns the response buffer after the drop. -/
def FilePermission.drop (p : FilePermission) (buffer : List Nat) : List Nat :=
  (p.write_buffered buffer).2.2

/-! ## Descriptor wrapper — `src/common.rs` -/

/-- The `ssize_t` cap applied by `FD::read`. -/
def maxSsize : Nat := 2 ^ 63 - 1

/-- `FD::read` (`src/common.rs` lines 65–73).  `bufLen` is the length of the
destination slice; `osRead` models `libc::read`, returning the bytes it
deposited.  The result pairs the `Result<usize, Errno>` (with the data read)
with a flag telling whether `libc::read` was invoked. -/
def FD.read (bufLen : Nat) (osRead : Nat → Except Errno (List Nat)) :
    Except Errno (Nat × List Nat) × Bool :=
  if bufLen = 0 then (.ok (0, []), false)
  else
    match osRead (min bufLen maxSsize) with
    | .error e => (.error e, true)
    | .ok bytes => (.ok (bytes.length, bytes), true)

/-- `FD::write` (`src/common.rs` lines 79–87).  `osWrite` models
`libc::write`.  The result pairs the `Result<usize, Errno>` with a flag
telling whether `libc::write` was invoked. -/
def FD.write (buf : List Nat) (osWrite : List Nat → Except Errno Nat) :
    Except Errno Nat × Bool :=
  if buf.isEmpty then (.ok 0, false)
  else (osWrite buf, true)

/-- `Events::read` (`src/event/events.rs` lines 59–89): clear the buffer,
read into its spare capacity (a slice of length `capacity`), then
`set_len(bytes_read)`.  Returns the filled events buffer and whether the
underlying `libc::read` ran. -/
def Events.read (capacity : Nat) (osRead : Nat → Except Errno (List Nat)) :
    Except Errno (List Nat) × Bool :=
  match FD.read capacity osRead with
  | (.error e, called) => (.error e, called)
  | (.ok (bytes_read, bytes), called) => (.ok (bytes.take bytes_read), called)

/-! ## Record decoder — `src/event/iterator.rs`

`decodeOne` is `EventIterator::next_unchecked` acting on
`remaining = buffer[read_index..]`.  Besides the decode result it returns the
number of bytes the cursor advanced by: the source bumps `read_index` by 4
before the length-field bounds check (and leaves it there when that check
fails), and otherwise bumps it by the declared `event_len` before every later
check, so every non-first error leaves the cursor `event_len` past the
record's start.

The group configuration enters through `flags` (the result of
`init.flags()`), and `ownId` is the pid/tid snapshot the surrounding
`Events::read` captured once.
-/

def FANOTIFY_METADATA_VERSION : Nat := 3

/-- Size of `fanotify_event_metadata` (24 bytes on x86-64). -/
def metadataSize : Nat := 24

/-- Size of `fanotify_event_info_fid` (16 bytes on x86-64: a 4-byte header,
an 8-byte `fsid_t`, the 1-byte nominal handle, and 3 bytes of padding). -/
def infoFidSize : Nat := 16

/-- Size of `fanotify_event_info_header` plus `fsid_t` (4 + 8 bytes), the
length the decoder expects in the info record's `len` field. -/
def fidExpectedLen : Nat := 12

/-- One step of `EventIterator::next_unchecked`
(`src/event/iterator.rs` lines 45–185) on the bytes from the cursor on.
Returns the per-record result and the number of bytes consumed. -/
def decodeOne (flags : Nat) (ownId : Id) (remaining : List Nat) :
    Except EventError Event × Nat :=
  let rlen := remaining.length
  if rlen < 4 then
    (.error (.TooShort .EventLenField rlen 4), 4)
  else
    let event_len := readU32 remaining 0
    let result : Except EventError Event :=
      if rlen < event_len then
        .error (.TooShort .FullEvent rlen event_len)
      else if rlen < metadataSize then
        .error (.TooShort .BaseEvent rlen metadataSize)
      else if readU8 remaining 4 ≠ FANOTIFY_METADATA_VERSION then
        .error .WrongVersion
      else if readU64 remaining 8 &&& FAN_Q_OVERFLOW ≠ 0 then
        if Flags.containsBit flags FAN_UNLIMITED_QUEUE then
          .error .UnlimitedQueueButQueueStillOverflowed
        else
          .error .QueueOverflowed
      else
        let mask := Mask.fromBitsTruncate (readU64 remaining 8)
        let fd := toI32 (readU32 remaining 16)
        let has_no_fd : Bool := fd = -1
        let requested_fid : Bool := Flags.containsBit flags FAN_REPORT_FID
        let received_fid : Bool := metadataSize < event_len
        let is_perm : Bool := Mask.includes_permission mask
        if requested_fid && !received_fid then
          .error .FidRequestedButNotReceived
        else if requested_fid && received_fid && has_no_fd && is_perm then
          .error .FidReturnedForPermissionEvent
        else if requested_fid && received_fid && !has_no_fd && !is_perm then
          .error .FidRequestedButNotReceived
        else if requested_fid && received_fid && has_no_fd && !is_perm &&
            rlen < metadataSize + infoFidSize then
          .error (.TooShort .BaseAndFidEvent rlen (metadataSize + infoFidSize))
        else if !requested_fid && has_no_fd then
          .error .QueueOverflowed
        else if !requested_fid && received_fid then
          .error .FidNotRequestedButReceived
        else
          let raw_id := toI32 (readU32 remaining 20)
          let id := match ownId with
            | .Pid _ => Id.Pid raw_id
            | .Tid _ => Id.Tid raw_id
          let event_id : EventId :=
            { is_generated_by_self := decide (id = ownId), id := id }
          if is_perm then
            if fd < 0 then .error (.InvalidFd fd)
            else
              .ok { mask := mask, id := event_id,
                    file := .Permission (FilePermission.new fd) }
          else if received_fid then
            let info_type_raw := readU8 remaining 24
            match InfoType.tryFrom info_type_raw with
            | .error t => .error (.InvalidFidInfoType t)
            | .ok info_type =>
              let hdr_len := readU16 remaining 26
              if hdr_len ≠ fidExpectedLen then
                .error (.TooShort .FidEvent hdr_len fidExpectedLen)
              else
                .ok { mask := mask, id := event_id,
                      file := .FID info_type
                        (readU32 remaining 28, readU32 remaining 32)
                        ((remaining.drop 36).take (event_len - 36)) }
          else
            if fd < 0 then .error (.InvalidFd fd)
            else
              .ok { mask := mask, id := event_id, file := .FD fd }
    (result, event_len)

/-- One step of the iterator on the full buffer: decode at the cursor and
return the advanced cursor (`read_index`). -/
def decodeStep (flags : Nat) (ownId : Id) (buf : List Nat) (ix : Nat) :
    Except EventError Event × Nat :=
  let r := decodeOne flags ownId (buf.drop ix)
  (r.1, ix + r.2)

/-- `Iterator::next` for `EventIterator` (`src/event/iterator.rs`
lines 188–198): `None` once the cursor has reached the buffer's length. -/
def EventIterator.next (flags : Nat) (ownId : Id) (buf : List Nat)
    (ix : Nat) : Option (Except EventError Event × Nat) :=
  if buf.length ≤ ix then none else some (decodeStep flags ownId buf ix)

/-- Drive the iterator for at most `fuel` steps from cursor `ix`, collecting
the yielded items and returning the final cursor. -/
def runFuel (flags : Nat) (ownId : Id) (buf : List Nat) :
    Nat → Nat → List (Except EventError Event) × Nat
  | 0, ix => ([], ix)
  | fuel + 1, ix =>
    if buf.length ≤ ix then ([], ix)
    else
      let s := decodeStep flags ownId buf ix
      let rest := runFuel flags ownId buf fuel s.2
      (s.1 :: rest.1, rest.2)

/-- The cursor after `n` calls to `next` (unchanged once iteration ended). -/
def iterCursor (flags : Nat) (ownId : Id) (buf : List Nat) : Nat → Nat
  | 0 => 0
  | n + 1 =>
    let c := iterCursor flags ownId buf n
    if buf.length ≤ c then c else (decodeStep flags ownId buf c).2

/-- The iterator never stops: every amount of fuel is fully used, i.e. each
call to `next` yields yet another item. -/
def yieldsForever (flags : Nat) (ownId : Id) (buf : List Nat) : Prop :=
  ∀ n, (runFuel flags ownId buf n 0).1.length = n

/-! ## Synthetic records

Structured descriptions of wire records together with their byte encoding,
used to state properties about decoding concatenations of records.
-/

/-- The trailing `fanotify_event_info_fid` record of a FID event. -/
structure FidInfo where
  info_type : Nat
  pad : Nat
  len : Nat
  fsid1 : Nat
  fsid2 : Nat
  handle : List Nat
deriving DecidableEq, Repr

/-- Byte encoding of a `FidInfo`: the 4-byte header, the 8-byte filesystem
id, then the opaque handle bytes. -/
def FidInfo.encode (fi : FidInfo) : List Nat :=
  [fi.info_type, fi.pad] ++ encU16 fi.len ++ encU32 fi.fsid1 ++
    encU32 fi.fsid2 ++ fi.handle

/-- A structured wire record: the `fanotify_event_metadata` fields (with
`event_len` computed from the shape) and an optional trailing info record. -/
structure RawRecord where
  vers : Nat
  reserved : Nat
  metadata_len : Nat
  mask : Nat
  fd : Int
  pid : Int
  info : Option FidInfo
deriving DecidableEq, Repr

/-- The `event_len` a record declares: the 24 metadata bytes plus the
trailing info bytes, if any. -/
def RawRecord.eventLen (r : RawRecord) : Nat :=
  metadataSize + (match r.info with
    | none => 0
    | some fi => fi.encode.length)

/-- Byte encoding of a record, little-endian, repr(C) layout. -/
def RawRecord.encode (r : RawRecord) : List Nat :=
  encU32 r.eventLen ++ [r.vers, r.reserved] ++ encU16 r.metadata_len ++
    encU64 r.mask ++ encI32 r.fd ++ encI32 r.pid ++
    (match r.info with
      | none => []
      | some fi => fi.encode)

/-- Byte encoding of a list of records: their concatenation. -/
def encodeRecords (rs : List RawRecord) : List Nat :=
  (rs.map RawRecord.encode).flatten

/-- A record the decoder accepts, for a group whose `init.flags()` value is
`flags`.  The conditions mirror the decoder's checks:

* the version byte is the fixed protocol version 3, field values fit their
  wire widths, and the overflow bit is clear;
* without `REPORT_FID`: no trailing info and a non-negative descriptor;
* with `REPORT_FID`: a trailing info record is present; a permission record
  (all three permission bits, which is what `includes_permission` tests)
  carries a non-negative descriptor; a non-permission record carries the
  `-1` sentinel and a recognized, correctly sized info record whose handle
  leaves the info at least `infoFidSize` bytes long. -/
def RawRecord.infoWellFormed (flags : Nat) (fd : Int) (mask : Nat) :
    Option FidInfo → Prop
  | none =>
    ¬ Flags.containsBit flags FAN_REPORT_FID ∧ 0 ≤ fd
  | some fi =>
    Flags.containsBit flags FAN_REPORT_FID ∧
    (if Mask.includes_permission (Mask.fromBitsTruncate mask) then
      0 ≤ fd
    else
      fd = -1 ∧ fi.info_type < 2 ^ 8 ∧ fi.pad < 2 ^ 8 ∧
      (InfoType.tryFrom fi.info_type).isOk ∧ fi.len = fidExpectedLen ∧
      fi.fsid1 < 2 ^ 32 ∧ fi.fsid2 < 2 ^ 32 ∧ 4 ≤ fi.handle.length)

instance (flags : Nat) (fd : Int) (mask : Nat) :
    (o : Option FidInfo) → Decidable (RawRecord.infoWellFormed flags fd mask o)
  | none => by unfold RawRecord.infoWellFormed; infer_instance
  | some fi => by unfold RawRecord.infoWellFormed; infer_instance

def RawRecord.wellFormed (flags : Nat) (r : RawRecord) : Prop :=
  r.vers = FANOTIFY_METADATA_VERSION ∧
  r.reserved < 2 ^ 8 ∧
  r.metadata_len < 2 ^ 16 ∧
  r.mask < 2 ^ 64 ∧
  r.mask &&& FAN_Q_OVERFLOW = 0 ∧
  -2 ^ 31 ≤ r.fd ∧ r.fd < 2 ^ 31 ∧
  -2 ^ 31 ≤ r.pid ∧ r.pid < 2 ^ 31 ∧
  r.eventLen < 2 ^ 32 ∧
  RawRecord.infoWellFormed flags r.fd r.mask r.info

instance (flags : Nat) (r : RawRecord) : Decidable (r.wellFormed flags) := by
  unfold RawRecord.wellFormed; infer_instance

/-! ## Reading back encoded bytes -/

theorem readU8_append_right (l₁ l₂ : List Nat) (i : Nat) (h : l₁.length ≤ i) :
    readU8 (l₁ ++ l₂) i = readU8 l₂ (i - l₁.length) := by
  unfold readU8
  exact List.getD_append_right l₁ l₂ 0 i h

theorem readU16_append_right (l₁ l₂ : List Nat) (i : Nat) (h : l₁.length ≤ i) :
    readU16 (l₁ ++ l₂) i = readU16 l₂ (i - l₁.length) := by
  unfold readU16
  rw [readU8_append_right l₁ l₂ i h, readU8_append_right l₁ l₂ (i + 1) (by omega)]
  have e1 : i + 1 - l₁.length = i - l₁.length + 1 := by omega
  rw [e1]

theorem readU32_append_right (l₁ l₂ : List Nat) (i : Nat) (h : l₁.length ≤ i) :
    readU32 (l₁ ++ l₂) i = readU32 l₂ (i - l₁.length) := by
  unfold readU32
  rw [readU8_append_right l₁ l₂ i h, readU8_append_right l₁ l₂ (i + 1) (by omega),
    readU8_append_right l₁ l₂ (i + 2) (by omega),
    readU8_append_right l₁ l₂ (i + 3) (by omega)]
  have e1 : i + 1 - l₁.length = i - l₁.length + 1 := by omega
  have e2 : i + 2 - l₁.length = i - l₁.length + 2 := by omega
  have e3 : i + 3 - l₁.length = i - l₁.length + 3 := by omega
  rw [e1, e2, e3]

theorem readU64_append_right (l₁ l₂ : List Nat) (i : Nat) (h : l₁.length ≤ i) :
    readU64 (l₁ ++ l₂) i = readU64 l₂ (i - l₁.length) := by
  unfold readU64
  rw [readU32_append_right l₁ l₂ i h, readU32_append_right l₁ l₂ (i + 4) (by omega)]
  have e1 : i + 4 - l₁.length = i - l₁.length + 4 := by omega
  rw [e1]

@[simp] theorem length_encU16 (n : Nat) : (encU16 n).length = 2 := rfl

@[simp] theorem length_encU32 (n : Nat) : (encU32 n).length = 4 := rfl

@[simp] theorem length_encU64 (n : Nat) : (encU64 n).length = 8 := by
  unfold encU64
  simp

@[simp] theorem length_encI32 (i : Int) : (encI32 i).length = 4 := rfl

@[simp] theorem length_fidInfo_encode (fi : FidInfo) :
    fi.encode.length = fidExpectedLen + fi.handle.length := by
  unfold FidInfo.encode fidExpectedLen
  simp
  omega

theorem readU16_encU16 (n : Nat) (rest : List Nat) :
    readU16 (encU16 n ++ rest) 0 = n % 2 ^ 16 := by
  have h : readU16 (encU16 n ++ rest) 0 =
      n % 2 ^ 8 + 2 ^ 8 * (n / 2 ^ 8 % 2 ^ 8) := rfl
  rw [h]
  omega

theorem readU32_encU32 (n : Nat) (rest : List Nat) :
    readU32 (encU32 n ++ rest) 0 = n % 2 ^ 32 := by
  have h : readU32 (encU32 n ++ rest) 0 =
      n % 2 ^ 8 + 2 ^ 8 * (n / 2 ^ 8 % 2 ^ 8) + 2 ^ 16 * (n / 2 ^ 16 % 2 ^ 8) +
        2 ^ 24 * (n / 2 ^ 24 % 2 ^ 8) := rfl
  rw [h]
  omega

theorem readU64_encU64 (n : Nat) (rest : List Nat) :
    readU64 (encU64 n ++ rest) 0 = n % 2 ^ 64 := by
  unfold readU64 encU64
  rw [List.append_assoc]
  rw [readU32_encU32]
  rw [readU32_append_right _ _ 4 (by simp)]
  simp only [length_encU32]
  rw [show (4 - 4 : Nat) = 0 from rfl, readU32_encU32]
  omega

theorem readU32_encI32 (i : Int) (rest : List Nat) :
    readU32 (encI32 i ++ rest) 0 = (i % (2 ^ 32 : Int)).toNat := by
  unfold encI32
  rw [readU32_encU32]
  omega

theorem toI32_emod (i : Int) (h1 : -2 ^ 31 ≤ i) (h2 : i < 2 ^ 31) :
    toI32 (i % (2 ^ 32 : Int)).toNat = i := by
  unfold toI32
  split <;> omega

theorem readU8_shift (l₁ l₂ : List Nat) (i j : Nat) (h : i = l₁.length + j) :
    readU8 (l₁ ++ l₂) i = readU8 l₂ j := by
  rw [readU8_append_right l₁ l₂ i (by omega)]
  congr 1
  omega

theorem readU16_shift (l₁ l₂ : List Nat) (i j : Nat) (h : i = l₁.length + j) :
    readU16 (l₁ ++ l₂) i = readU16 l₂ j := by
  rw [readU16_append_right l₁ l₂ i (by omega)]
  congr 1
  omega

theorem readU32_shift (l₁ l₂ : List Nat) (i j : Nat) (h : i = l₁.length + j) :
    readU32 (l₁ ++ l₂) i = readU32 l₂ j := by
  rw [readU32_append_right l₁ l₂ i (by omega)]
  congr 1
  omega

theorem readU64_shift (l₁ l₂ : List Nat) (i j : Nat) (h : i = l₁.length + j) :
    readU64 (l₁ ++ l₂) i = readU64 l₂ j := by
  rw [readU64_append_right l₁ l₂ i (by omega)]
  congr 1
  omega

theorem RawRecord.encode_length (r : RawRecord) : r.encode.length = r.eventLen := by
  unfold RawRecord.encode RawRecord.eventLen metadataSize
  cases r.info
  all_goals simp
  all_goals omega

theorem RawRecord.read_eventLen (r : RawRecord) (rest : List Nat)
    (h : r.eventLen < 2 ^ 32) :
    readU32 (r.encode ++ rest) 0 = r.eventLen := by
  unfold RawRecord.encode
  simp only [List.append_assoc]
  rw [readU32_encU32]
  omega

theorem RawRecord.read_vers (r : RawRecord) (rest : List Nat) :
    readU8 (r.encode ++ rest) 4 = r.vers := by
  unfold RawRecord.encode
  simp only [List.append_assoc]
  rw [readU8_shift _ _ 4 0 (by simp)]
  rfl

theorem RawRecord.read_mask (r : RawRecord) (rest : List Nat)
    (h : r.mask < 2 ^ 64) :
    readU64 (r.encode ++ rest) 8 = r.mask := by
  unfold RawRecord.encode
  simp only [List.append_assoc]
  rw [readU64_shift _ _ 8 4 (by simp)]
  rw [readU64_shift _ _ 4 2 (by simp)]
  rw [readU64_shift _ _ 2 0 (by simp)]
  rw [readU64_encU64]
  omega

theorem RawRecord.read_fd (r : RawRecord) (rest : List Nat) :
    readU32 (r.encode ++ rest) 16 = (r.fd % (2 ^ 32 : Int)).toNat := by
  unfold RawRecord.encode
  simp only [List.append_assoc]
  rw [readU32_shift _ _ 16 12 (by simp)]
  rw [readU32_shift _ _ 12 10 (by simp)]
  rw [readU32_shift _ _ 10 8 (by simp)]
  rw [readU32_shift _ _ 8 0 (by simp)]
  rw [readU32_encI32]

theorem RawRecord.read_pid (r : RawRecord) (rest : List Nat) :
    readU32 (r.encode ++ rest) 20 = (r.pid % (2 ^ 32 : Int)).toNat := by
  unfold RawRecord.encode
  simp only [List.append_assoc]
  rw [readU32_shift _ _ 20 16 (by simp)]
  rw [readU32_shift _ _ 16 14 (by simp)]
  rw [readU32_shift _ _ 14 12 (by simp)]
  rw [readU32_shift _ _ 12 4 (by simp)]
  rw [readU32_shift _ _ 4 0 (by simp)]
  rw [readU32_encI32]

theorem RawRecord.read_info_type (r : RawRecord) (fi : FidInfo)
    (rest : List Nat) (h : r.info = some fi) :
    readU8 (r.encode ++ rest) 24 = fi.info_type := by
  unfold RawRecord.encode
  rw [h]
  simp only [List.append_assoc]
  rw [readU8_shift _ _ 24 20 (by simp)]
  rw [readU8_shift _ _ 20 18 (by simp)]
  rw [readU8_shift _ _ 18 16 (by simp)]
  rw [readU8_shift _ _ 16 8 (by simp)]
  rw [readU8_shift _ _ 8 4 (by simp)]
  rw [readU8_shift _ _ 4 0 (by simp)]
  unfold FidInfo.encode
  simp only [List.append_assoc]
  rfl

theorem RawRecord.read_info_len (r : RawRecord) (fi : FidInfo)
    (rest : List Nat) (h : r.info = some fi) (hl : fi.len < 2 ^ 16) :
    readU16 (r.encode ++ rest) 26 = fi.len := by
  unfold RawRecord.encode
  rw [h]
  simp only [List.append_assoc]
  rw [readU16_shift _ _ 26 22 (by simp)]
  rw [readU16_shift _ _ 22 20 (by simp)]
  rw [readU16_shift _ _ 20 18 (by simp)]
  rw [readU16_shift _ _ 18 10 (by simp)]
  rw [readU16_shift _ _ 10 6 (by simp)]
  rw [readU16_shift _ _ 6 2 (by simp)]
  unfold FidInfo.encode
  simp only [List.append_assoc]
  rw [readU16_shift _ _ 2 0 (by simp)]
  rw [readU16_encU16]
  omega

theorem RawRecord.read_fsid1 (r : RawRecord) (fi : FidInfo)
    (rest : List Nat) (h : r.info = some fi) (hb : fi.fsid1 < 2 ^ 32) :
    readU32 (r.encode ++ rest) 28 = fi.fsid1 := by
  unfold RawRecord.encode
  rw [h]
  simp only [List.append_assoc]
  rw [readU32_shift _ _ 28 24 (by simp)]
  rw [readU32_shift _ _ 24 22 (by simp)]
  rw [readU32_shift _ _ 22 20 (by simp)]
  rw [readU32_shift _ _ 20 12 (by simp)]
  rw [readU32_shift _ _ 12 8 (by simp)]
  rw [readU32_shift _ _ 8 4 (by simp)]
  unfold FidInfo.encode
  simp only [List.append_assoc]
  rw [readU32_shift _ _ 4 2 (by simp)]
  rw [readU32_shift _ _ 2 0 (by simp)]
  rw [readU32_encU32]
  omega

theorem RawRecord.read_fsid2 (r : RawRecord) (fi : FidInfo)
    (rest : List Nat) (h : r.info = some fi) (hb : fi.fsid2 < 2 ^ 32) :
    readU32 (r.encode ++ rest) 32 = fi.fsid2 := by
  unfold RawRecord.encode
  rw [h]
  simp only [List.append_assoc]
  rw [readU32_shift _ _ 32 28 (by simp)]
  rw [readU32_shift _ _ 28 26 (by simp)]
  rw [readU32_shift _ _ 26 24 (by simp)]
  rw [readU32_shift _ _ 24 16 (by simp)]
  rw [readU32_shift _ _ 16 12 (by simp)]
  rw [readU32_shift _ _ 12 8 (by simp)]
  unfold FidInfo.encode
  simp only [List.append_assoc]
  rw [readU32_shift _ _ 8 6 (by simp)]
  rw [readU32_shift _ _ 6 4 (by simp)]
  rw [readU32_shift _ _ 4 0 (by simp)]
  rw [readU32_encU32]
  omega

theorem RawRecord.drop36 (r : RawRecord) (fi : FidInfo) (rest : List Nat)
    (h : r.info = some fi) :
    (r.encode ++ rest).drop 36 = fi.handle ++ rest := by
  unfold RawRecord.encode FidInfo.encode RawRecord.eventLen
  rw [h]
  simp only [List.append_assoc]
  unfold encU32 encU16 encU64 encI32 encU32
  simp only [List.cons_append, List.nil_append, List.drop_succ_cons,
    List.drop_zero]

/-- The event the decoder is expected to produce for a well-formed record. -/
def RawRecord.expectedEvent (ownId : Id) (r : RawRecord) : Event :=
  let mask := Mask.fromBitsTruncate r.mask
  let id := match ownId with
    | .Pid _ => Id.Pid r.pid
    | .Tid _ => Id.Tid r.pid
  let event_id : EventId :=
    { is_generated_by_self := decide (id = ownId), id := id }
  let file : File :=
    if Mask.includes_permission mask then
      .Permission (FilePermission.new r.fd)
    else
      match r.info with
      | none => .FD r.fd
      | some fi =>
        .FID ((InfoType.tryFrom fi.info_type).toOption.getD .Fid)
          (fi.fsid1, fi.fsid2) fi.handle
  { mask := mask, id := event_id, file := file }

theorem decodeOne_wellFormed (flags : Nat) (ownId : Id) (r : RawRecord)
    (rest : List Nat) (h : r.wellFormed flags) :
    decodeOne flags ownId (r.encode ++ rest) =
      (.ok (r.expectedEvent ownId), r.eventLen) := by
  obtain ⟨hv, hres, hml, hm, hq, hfd1, hfd2, hpid1, hpid2, hel, hinfo⟩ := h
  have hlen : (r.encode ++ rest).length = r.eventLen + rest.length := by
    simp [RawRecord.encode_length]
  have h0 := r.read_eventLen rest hel
  have h4 := r.read_vers rest
  have h8 := r.read_mask rest hm
  have h16 : toI32 (readU32 (r.encode ++ rest) 16) = r.fd := by
    rw [r.read_fd rest]
    exact toI32_emod r.fd hfd1 hfd2
  have h20 : toI32 (readU32 (r.encode ++ rest) 20) = r.pid := by
    rw [r.read_pid rest]
    exact toI32_emod r.pid hpid1 hpid2
  cases hi : r.info with
  | none =>
    rw [hi] at hinfo
    simp only [RawRecord.infoWellFormed] at hinfo
    obtain ⟨hnreq, hfd0⟩ := hinfo
    have hEl : r.eventLen = 24 := by
      simp [RawRecord.eventLen, hi, metadataSize]
    have hfdne : r.fd ≠ -1 := by omega
    simp only [decodeOne, metadataSize, infoFidSize, FANOTIFY_METADATA_VERSION]
    rw [hlen, h0, h4, h8, h16, h20]
    rw [if_neg (by omega), if_neg (by omega), if_neg (by omega)]
    rw [if_neg (by simp [hv, FANOTIFY_METADATA_VERSION])]
    rw [if_neg (by simp [hq])]
    by_cases hperm : Mask.includes_permission (Mask.fromBitsTruncate r.mask)
    · simp [hnreq, hEl, hfdne, hperm, RawRecord.expectedEvent, hi,
        if_neg (by omega : ¬ r.fd < 0)]
    · simp [hnreq, hEl, hfdne, hperm, RawRecord.expectedEvent, hi,
        if_neg (by omega : ¬ r.fd < 0)]
  | some fi =>
    rw [hi] at hinfo
    simp only [RawRecord.infoWellFormed] at hinfo
    obtain ⟨hreq, hrest⟩ := hinfo
    have hEl : r.eventLen = 36 + fi.handle.length := by
      simp [RawRecord.eventLen, hi, metadataSize, fidExpectedLen]
      omega
    simp only [decodeOne, metadataSize, infoFidSize, FANOTIFY_METADATA_VERSION]
    rw [hlen, h0, h4, h8, h16, h20]
    rw [if_neg (by omega), if_neg (by omega), if_neg (by omega)]
    rw [if_neg (by simp [hv, FANOTIFY_METADATA_VERSION])]
    rw [if_neg (by simp [hq])]
    by_cases hperm : Mask.includes_permission (Mask.fromBitsTruncate r.mask)
    · rw [if_pos hperm] at hrest
      simp [hreq, hEl, hperm, RawRecord.expectedEvent, hi,
        if_neg (by omega : ¬ r.fd < 0),
        (by omega : r.fd ≠ -1)]
      rw [if_neg (by omega), if_neg (by omega)]
    · rw [if_neg hperm] at hrest
      obtain ⟨hfdm1, hit8, hpad8, hitOk, hlen12, hfs1, hfs2, hhandle⟩ := hrest
      obtain ⟨it, hit⟩ : ∃ it, InfoType.tryFrom fi.info_type = .ok it := by
        cases hok : InfoType.tryFrom fi.info_type
        · rw [hok] at hitOk; exact absurd hitOk (by simp [Except.isOk, Except.toBool])
        · exact ⟨_, rfl⟩
      have h24 := r.read_info_type fi rest hi
      have h26 := r.read_info_len fi rest hi (by rw [hlen12]; decide)
      have h28 := r.read_fsid1 fi rest hi hfs1
      have h32 := r.read_fsid2 fi rest hi hfs2
      have hdrop := r.drop36 fi rest hi
      simp [hreq, hEl, hperm, hfdm1, RawRecord.expectedEvent, hi,
        h24, h26, h28, h32, hdrop, hit, hlen12, fidExpectedLen,
        List.take_left, Except.toOption]
      rw [if_neg (by omega), if_neg (by omega), if_pos (by omega)]

theorem RawRecord.eventLen_ge (r : RawRecord) : metadataSize ≤ r.eventLen := by
  unfold RawRecord.eventLen
  omega

theorem encodeRecords_cons (r : RawRecord) (rs : List RawRecord) :
    encodeRecords (r :: rs) = r.encode ++ encodeRecords rs := by
  simp [encodeRecords]

theorem runFuel_done (flags : Nat) (ownId : Id) (buf : List Nat) (ix : Nat)
    (h : buf.length ≤ ix) (fuel : Nat) :
    runFuel flags ownId buf fuel ix = ([], ix) := by
  cases fuel
  · rfl
  · simp [runFuel, h]

theorem runFuel_encodeRecords (flags : Nat) (ownId : Id) (buf : List Nat) :
    ∀ (rs : List RawRecord) (k ix : Nat),
      buf.drop ix = encodeRecords rs →
      buf.length = ix + (encodeRecords rs).length →
      (∀ r ∈ rs, r.wellFormed flags) →
      runFuel flags ownId buf (rs.length + k) ix =
        (rs.map (fun r => .ok (r.expectedEvent ownId)), buf.length) := by
  intro rs
  induction rs with
  | nil =>
    intro k ix hdrop hblen _
    simp only [encodeRecords, List.map_nil, List.flatten_nil,
      List.length_nil] at hdrop hblen ⊢
    rw [Nat.zero_add]
    rw [runFuel_done flags ownId buf ix (by omega) k]
    simp
    omega
  | cons r rs ih =>
    intro k ix hdrop hblen hwf
    rw [encodeRecords_cons] at hdrop hblen
    have hwfr : r.wellFormed flags := hwf r (by simp)
    have hlen_enc : r.encode.length = r.eventLen := r.encode_length
    have hge := r.eventLen_ge
    have hms : metadataSize = 24 := rfl
    have hfuel : (r :: rs).length + k = (rs.length + k) + 1 := by
      simp only [List.length_cons]
      omega
    rw [hfuel]
    have hix : ¬ buf.length ≤ ix := by
      simp only [List.length_append] at hblen
      omega
    simp only [runFuel, decodeStep]
    rw [if_neg hix, hdrop, decodeOne_wellFormed flags ownId r _ hwfr]
    have hdrop' : buf.drop (ix + r.eventLen) = encodeRecords rs := by
      have h1 : buf.drop (ix + r.eventLen) = (buf.drop ix).drop r.eventLen := by
        rw [List.drop_drop]
      rw [h1, hdrop, ← hlen_enc, List.drop_left]
    have hblen' : buf.length = (ix + r.eventLen) + (encodeRecords rs).length := by
      simp only [List.length_append] at hblen
      omega
    rw [ih k (ix + r.eventLen) hdrop' hblen' (fun x hx => hwf x (by simp [hx]))]
    simp

theorem decodeOne_short (flags : Nat) (ownId : Id) (remaining : List Nat)
    (h : remaining.length < 4) :
    decodeOne flags ownId remaining =
      (.error (.TooShort .EventLenField remaining.length 4), 4) := by
  unfold decodeOne
  rw [if_pos h]

theorem decodeOne_consumed (flags : Nat) (ownId : Id) (remaining : List Nat)
    (h : ¬ remaining.length < 4) :
    (decodeOne flags ownId remaining).2 = readU32 remaining 0 := by
  unfold decodeOne
  rw [if_neg h]

theorem decodeOne_pos (flags : Nat) (ownId : Id) (remaining : List Nat)
    (hpos : remaining.length < 4 ∨ 0 < readU32 remaining 0) :
    0 < (decodeOne flags ownId remaining).2 := by
  by_cases h4 : remaining.length < 4
  · rw [decodeOne_short flags ownId remaining h4]
    omega
  · rw [decodeOne_consumed flags ownId remaining h4]
    rcases hpos with h | h
    · omega
    · exact h

theorem iterCursor_le_next (flags : Nat) (ownId : Id) (buf : List Nat)
    (n : Nat) :
    iterCursor flags ownId buf n ≤ iterCursor flags ownId buf (n + 1) := by
  simp only [iterCursor]
  split
  · exact Nat.le_refl _
  · simp only [decodeStep]
    omega

theorem iterCursor_reaches_end (flags : Nat) (ownId : Id) (buf : List Nat)
    (hpos : ∀ i, i < buf.length → 0 < readU32 (buf.drop i) 0) :
    buf.length ≤ iterCursor flags ownId buf buf.length := by
  have key : ∀ n, buf.length ≤ iterCursor flags ownId buf n ∨
      n ≤ iterCursor flags ownId buf n := by
    intro n
    induction n with
    | zero => right; exact Nat.le_refl 0
    | succ n ih =>
      by_cases hc : buf.length ≤ iterCursor flags ownId buf n
      · left
        simp only [iterCursor]
        rw [if_pos hc]
        exact hc
      · have hn : n ≤ iterCursor flags ownId buf n := by
          rcases ih with h | h
          · omega
          · exact h
        right
        simp only [iterCursor]
        rw [if_neg hc]
        simp only [decodeStep]
        have hp : 0 < (decodeOne flags ownId
            (buf.drop (iterCursor flags ownId buf n))).2 := by
          apply decodeOne_pos
          by_cases h4 : (buf.drop (iterCursor flags ownId buf n)).length < 4
          · exact Or.inl h4
          · exact Or.inr (hpos _ (by omega))
        omega
  rcases key buf.length with h | h
  · exact h
  · exact h

theorem decodeStep_error_advance (flags : Nat) (ownId : Id) (buf : List Nat)
    (ix : Nat) (e : EventError)
    (he : (decodeStep flags ownId buf ix).1 = .error e)
    (hne : ∀ f x, e ≠ .TooShort .EventLenField f x) :
    (decodeStep flags ownId buf ix).2 = ix + readU32 (buf.drop ix) 0 := by
  by_cases h4 : (buf.drop ix).length < 4
  · exfalso
    have h1 : (decodeStep flags ownId buf ix).1 =
        (.error (.TooShort .EventLenField (buf.drop ix).length 4)) := by
      simp only [decodeStep]
      rw [decodeOne_short flags ownId _ h4]
    rw [he] at h1
    exact hne _ _ (by injection h1)
  · simp only [decodeStep]
    rw [decodeOne_consumed flags ownId _ h4]

theorem and_congr_of_masked (f m c : Nat) (hf : f &&& m = f) :
    f &&& c = f &&& (m &&& c) := by
  conv_lhs => rw [← hf]
  rw [Nat.and_assoc]

/-! ## Claim theorems -/

/-- C4: for every valid structured `Init`, packing it with `as_raw` and
unpacking with `undo_raw` yields the original configuration:
`decode(encode(config)) == config`. -/
theorem c4_groupconfig_roundtrip (i : Init) (h : i.valid) :
    i.as_raw.undo_raw = i := by
  obtain ⟨hf, he⟩ := h
  obtain ⟨nc, f, rw0, ef⟩ := i
  simp only [Init.valid] at hf he
  have h15 : f &&& 15 = f &&& 3 := by
    rw [and_congr_of_masked f Flags.allBits 15 hf]
    congr 1
  have hx3 : f &&& 3 ≤ 3 := Nat.and_le_right
  have hnc : RawInit.notification_class ⟨nc.bits ||| f, rw0.bits ||| ef⟩ = nc := by
    unfold RawInit.notification_class RawInit.ncIndex
    simp only
    rw [Nat.and_distrib_right, h15]
    cases nc <;>
      simp only [NotificationClass.bits, FAN_CLASS_PRE_CONTENT,
        FAN_CLASS_CONTENT, FAN_CLASS_NOTIF] <;>
      interval_cases h3 : f &&& 3 <;> decide
  have hfl : RawInit.structuredFlags ⟨nc.bits ||| f, rw0.bits ||| ef⟩ = f := by
    unfold RawInit.structuredFlags Flags.fromBitsTruncate
    simp only
    rw [Nat.and_distrib_right]
    have h1 : f &&& 0xFFFFFFF3 = f := by
      rw [and_congr_of_masked f Flags.allBits _ hf]
      rw [show Flags.allBits &&& 0xFFFFFFF3 = Flags.allBits from by decide]
      exact hf
    have h2 : nc.bits &&& 0xFFFFFFF3 = 0 := by
      cases nc <;> decide
    rw [h1, h2, Nat.zero_or]
    exact hf
  have he3 : ef &&& 3 = 0 := by
    rw [and_congr_of_masked ef EventFlags.allBits 3 he]
    rw [show EventFlags.allBits &&& 3 = 0 from by decide]
    exact Nat.and_zero ef
  have hrw : RawInit.rw ⟨nc.bits ||| f, rw0.bits ||| ef⟩ = rw0 := by
    unfold RawInit.rw RawInit.rwIndex
    simp only
    rw [Nat.and_distrib_right, he3, Nat.or_zero]
    cases rw0 <;> decide
  have hef : RawInit.structuredEventFlags ⟨nc.bits ||| f, rw0.bits ||| ef⟩
      = ef := by
    unfold RawInit.structuredEventFlags EventFlags.fromBitsTruncate
    simp only
    rw [Nat.and_distrib_right]
    have h1 : ef &&& 0xFFFFFFFC = ef := by
      rw [and_congr_of_masked ef EventFlags.allBits _ he]
      rw [show EventFlags.allBits &&& 0xFFFFFFFC = EventFlags.allBits from
        by decide]
      exact he
    have h2 : rw0.bits &&& 0xFFFFFFFC = 0 := by
      cases rw0 <;> decide
    rw [h1, h2, Nat.zero_or]
    exact he
  simp only [Init.as_raw, Init.rawFlags, Init.rawEventFlags,
    RawInit.undo_raw, Init.mk.injEq]
  exact ⟨hnc, hfl, hrw, hef⟩

/-- A sample valid configuration for the round-trip theorem. -/
def c4Config : Init :=
  { notification_class := .PreContent
    flags := FAN_CLOEXEC ||| FAN_REPORT_FID
    rw := .ReadAndWrite
    event_flags := O_CLOEXEC ||| O_NONBLOCK }

theorem c4_groupconfig_roundtrip_witness :
    c4Config.valid ∧ c4Config.as_raw.undo_raw = c4Config :=
  ⟨by decide, c4_groupconfig_roundtrip c4Config (by decide)⟩

/-- A record whose mask carries only the `OPEN_PERM` bit, with a valid
descriptor, in a group without `REPORT_FID`. -/
def c1Record : RawRecord :=
  { vers := 3, reserved := 0, metadata_len := 0, mask := FAN_OPEN_PERM
    fd := 5, pid := 0, info := none }

/-- C1: the decoder's permission test `Mask::includes_permission` is
`contains(all_permissions())`, which demands ALL THREE permission bits at
once; a mask holding exactly one permission bit (each of the three) is NOT
classified as a permission event, and a record carrying only
`OPEN_PERMISSION` decodes to a plain `File::FD` payload rather than
`File::Permission`.  This contradicts the specified behaviour (any one bit
suffices). -/
theorem c1_includes_permission_requires_all_bits :
    ¬ Mask.includes_permission FAN_OPEN_PERM ∧
    ¬ Mask.includes_permission FAN_ACCESS_PERM ∧
    ¬ Mask.includes_permission FAN_OPEN_EXEC_PERM ∧
    Mask.includes_permission
      (FAN_OPEN_PERM ||| FAN_ACCESS_PERM ||| FAN_OPEN_EXEC_PERM) ∧
    (decodeOne 0 (Id.Pid 0) c1Record.encode).1 =
      .ok { mask := FAN_OPEN_PERM
            id := { is_generated_by_self := true, id := Id.Pid 0 }
            file := .FD 5 } := by
  decide

/-- C2: `Responses::write_immediately` maps `bytes_written == 0` to success
and any positive count — including a complete 8-byte write — to
`Err(EAGAIN)`.  The check is inverted with respect to its own comment ("a
write this small should definitely succeed"): a full write of the 8-byte
record errors, a 0-byte write "succeeds". -/
theorem c2_write_immediately_inverted :
    Responses.write_immediately (fun _ => .ok 8)
      { fd := 5, decision := .Allow, audit := false } = .error .EAGAIN ∧
    Responses.write_immediately (fun _ => .ok 0)
      { fd := 5, decision := .Allow, audit := false } = .ok () ∧
    Responses.write_immediately (fun _ => .ok 4)
      { fd := 5, decision := .Allow, audit := false } = .error .EAGAIN ∧
    ({ fd := 5, decision := .Allow, audit := false
       : RawFilePermission }).toResponse.bytes.length = 8 := by
  refine ⟨rfl, rfl, rfl, rfl⟩

/-- C3: dropping a `FilePermission` that was never written appends exactly
one serialized response record to the buffer, and that record is
`{fd, FAN_ALLOW, audit = false}` (response word `0x01`, 8 bytes). -/
theorem c3_drop_writes_default_allow_response (fd : Int) (buffer : List Nat) :
    FilePermission.drop (FilePermission.new fd) buffer =
      buffer ++
        ({ fd := fd, decision := .Allow, audit := false
           : RawFilePermission }).toResponse.bytes ∧
    ({ fd := fd, decision := .Allow, audit := false
       : RawFilePermission }).toResponse = { fd := fd, response := 0x01 } ∧
    ({ fd := fd, decision := .Allow, audit := false
       : RawFilePermission }).toResponse.bytes.length = 8 := by
  refine ⟨?_, ?_, ?_⟩
  · simp [FilePermission.drop, FilePermission.write_buffered,
      FilePermission.new, FilePermission.response, Responses.write_buffered]
  · simp [RawFilePermission.toResponse, PermissionDecision.bits, FAN_AUDIT]
  · simp [FanotifyResponse.bytes, encI32]

/-- The scenario of the claim: a group with `REPORT_FID`, a record with no
trailing info (`event_len` equals the base size), the `-1` sentinel
descriptor, and a mask including `OPEN_PERM`. -/
def c5ClaimRecord : RawRecord :=
  { vers := 3, reserved := 0, metadata_len := 0, mask := FAN_OPEN_PERM
    fd := -1, pid := 0, info := none }

/-- C5 counterexample: in the claimed scenario the decoder reports
`FidRequestedButNotReceived` (the `requested_fid && !received_fid` check
fires first), not `FidReturnedForPermissionEvent`. -/
theorem c5_base_only_yields_fid_requested_but_not_received :
    c5ClaimRecord.eventLen = metadataSize ∧
    c5ClaimRecord.fd = -1 ∧
    c5ClaimRecord.mask &&& FAN_OPEN_PERM = FAN_OPEN_PERM ∧
    Flags.containsBit FAN_REPORT_FID FAN_REPORT_FID ∧
    decodeOne FAN_REPORT_FID (Id.Pid 0) c5ClaimRecord.encode =
      (.error .FidRequestedButNotReceived, metadataSize) ∧
    EventError.FidRequestedButNotReceived ≠
      EventError.FidReturnedForPermissionEvent := by
  decide

/-- C5 (amended): with `REPORT_FID`, a record that DOES carry a trailing
info record, has the `-1` sentinel descriptor, and whose truncated mask
passes the decoder's permission test (all three permission bits) yields
`FidReturnedForPermissionEvent`. -/
theorem c5_sentinel_fid_permission_record_errors (flags : Nat) (ownId : Id)
    (r : RawRecord) (rest : List Nat) (fi : FidInfo)
    (hreq : Flags.containsBit flags FAN_REPORT_FID)
    (hi : r.info = some fi)
    (hfd : r.fd = -1)
    (hperm : Mask.includes_permission (Mask.fromBitsTruncate r.mask))
    (hv : r.vers = FANOTIFY_METADATA_VERSION)
    (hq : r.mask &&& FAN_Q_OVERFLOW = 0)
    (hm : r.mask < 2 ^ 64)
    (hel : r.eventLen < 2 ^ 32) :
    decodeOne flags ownId (r.encode ++ rest) =
      (.error .FidReturnedForPermissionEvent, r.eventLen) := by
  have hlen : (r.encode ++ rest).length = r.eventLen + rest.length := by
    simp [RawRecord.encode_length]
  have h0 := r.read_eventLen rest hel
  have h4 := r.read_vers rest
  have h8 := r.read_mask rest hm
  have h16 : toI32 (readU32 (r.encode ++ rest) 16) = r.fd := by
    rw [r.read_fd rest]
    exact toI32_emod r.fd (by rw [hfd]; decide) (by rw [hfd]; decide)
  have hEl : r.eventLen = 36 + fi.handle.length := by
    simp [RawRecord.eventLen, hi, metadataSize, fidExpectedLen]
    omega
  simp only [decodeOne, metadataSize, infoFidSize, FANOTIFY_METADATA_VERSION]
  rw [hlen, h0, h4, h8, h16]
  rw [if_neg (by omega), if_neg (by omega), if_neg (by omega)]
  rw [if_neg (by simp [hv, FANOTIFY_METADATA_VERSION])]
  rw [if_neg (by simp [hq])]
  simp [hreq, hperm, hfd, hEl]
  rw [if_neg (by omega), if_pos (by omega)]

/-- A concrete record for the amended C5 scenario: trailing info present,
sentinel descriptor, all three permission bits. -/
def c5AmendedRecord : RawRecord :=
  { vers := 3, reserved := 0, metadata_len := 0
    mask := FAN_OPEN_PERM ||| FAN_ACCESS_PERM ||| FAN_OPEN_EXEC_PERM
    fd := -1, pid := 0
    info := some { info_type := 1, pad := 0, len := 12, fsid1 := 9
                   fsid2 := 8, handle := [1, 2, 3, 4] } }

theorem c5_sentinel_fid_permission_record_errors_witness :
    Flags.containsBit FAN_REPORT_FID FAN_REPORT_FID ∧
    Mask.includes_permission (Mask.fromBitsTruncate c5AmendedRecord.mask) ∧
    decodeOne FAN_REPORT_FID (Id.Pid 0) (c5AmendedRecord.encode ++ []) =
      (.error .FidReturnedForPermissionEvent, c5AmendedRecord.eventLen) :=
  ⟨by decide, by decide,
    c5_sentinel_fid_permission_record_errors FAN_REPORT_FID (Id.Pid 0)
      c5AmendedRecord [] _ (by decide) rfl rfl (by decide) rfl (by decide)
      (by decide) (by decide)⟩

/-- A record satisfying the claim's literal well-formedness conditions for a
`REPORT_FID` group — version byte 3, non-negative descriptor, no overflow
bit, trailing FID info present — that the decoder nevertheless rejects. -/
def c6ClaimRecord : RawRecord :=
  { vers := 3, reserved := 0, metadata_len := 0, mask := FAN_OPEN
    fd := 0, pid := 0
    info := some { info_type := 1, pad := 0, len := 12, fsid1 := 0
                   fsid2 := 0, handle := [0, 0, 0, 0] } }

/-- C6 counterexample: a buffer of N = 1 record that is well-formed in the
claim's sense (correct version, non-negative descriptor, no overflow bit,
FID info present in a `REPORT_FID` group) decodes to one `Err`, not one
`Ok`: the decoder demands the `-1` sentinel for non-permission records when
`REPORT_FID` is set. -/
theorem c6_claim_wellformed_buffer_yields_error :
    c6ClaimRecord.vers = FANOTIFY_METADATA_VERSION ∧
    0 ≤ c6ClaimRecord.fd ∧
    c6ClaimRecord.mask &&& FAN_Q_OVERFLOW = 0 ∧
    c6ClaimRecord.info.isSome = true ∧
    Flags.containsBit FAN_REPORT_FID FAN_REPORT_FID ∧
    runFuel FAN_REPORT_FID (Id.Pid 1) (encodeRecords [c6ClaimRecord]) 2 0 =
      ([.error .FidRequestedButNotReceived],
       (encodeRecords [c6ClaimRecord]).length) := by
  decide

/-- C6 (amended): for every buffer formed by concatenating N records that
are well-formed in the decoder's sense (`RawRecord.wellFormed`: correct
version byte, no overflow bit, FID info present iff the group requested
`REPORT_FID`, and a descriptor consistent with the cross-validation —
non-negative for permission records and for records of non-FID groups, the
`-1` sentinel for non-permission FID records), iteration yields exactly N
`Ok` events in record order, and the cursor ends at the buffer's length
(any extra fuel `k` yields nothing further). -/
theorem c6_wellformed_records_decode_in_order (flags : Nat) (ownId : Id)
    (rs : List RawRecord) (k : Nat)
    (h : ∀ r ∈ rs, r.wellFormed flags) :
    runFuel flags ownId (encodeRecords rs) (rs.length + k) 0 =
      (rs.map (fun r => .ok (r.expectedEvent ownId)),
       (encodeRecords rs).length) :=
  runFuel_encodeRecords flags ownId (encodeRecords rs) rs k 0 (by simp)
    (by simp) h

/-- A first sample record: a plain `OPEN` event with descriptor 7. -/
def c6WitnessA : RawRecord :=
  { vers := 3, reserved := 0, metadata_len := 0, mask := FAN_OPEN
    fd := 7, pid := 1234, info := none }

/-- A second sample record: a `CLOSE_WRITE` event with descriptor 9. -/
def c6WitnessB : RawRecord :=
  { vers := 3, reserved := 0, metadata_len := 0, mask := FAN_CLOSE_WRITE
    fd := 9, pid := 42, info := none }

theorem c6_wellformed_records_decode_in_order_witness :
    (∀ r ∈ [c6WitnessA, c6WitnessB], r.wellFormed 0) ∧
    runFuel 0 (Id.Pid 1234) (encodeRecords [c6WitnessA, c6WitnessB]) 3 0 =
      ([.ok (c6WitnessA.expectedEvent (Id.Pid 1234)),
        .ok (c6WitnessB.expectedEvent (Id.Pid 1234))],
       (encodeRecords [c6WitnessA, c6WitnessB]).length) := by
  refine ⟨by decide, ?_⟩
  have h := c6_wellformed_records_decode_in_order 0 (Id.Pid 1234)
    [c6WitnessA, c6WitnessB] 1 (by decide)
  simpa using h

/-- C7: the `written` flag makes the write operations idempotent.  The first
buffered write reports `true` and appends exactly one 8-byte record; on the
resulting object a second buffered write reports `false` and leaves the
buffer unchanged, and a second immediate write reports `Ok(false)` without
touching the descriptor.  Likewise after a successful immediate write (the
underlying write reporting 0 bytes, which is this code's success case), a
buffered write is a no-op.  In all cases exactly one record reaches the
buffer or the descriptor. -/
theorem c7_second_write_is_noop (fd : Int) (buffer : List Nat)
    (osWrite : List Nat → Except Errno Nat) :
    ((FilePermission.new fd).write_buffered buffer).1 = true ∧
    (((FilePermission.new fd).write_buffered buffer).2.2).length =
      buffer.length + 8 ∧
    ((((FilePermission.new fd).write_buffered buffer).2.1).write_buffered
        (((FilePermission.new fd).write_buffered buffer).2.2)).1 = false ∧
    ((((FilePermission.new fd).write_buffered buffer).2.1).write_buffered
        (((FilePermission.new fd).write_buffered buffer).2.2)).2.2 =
      (((FilePermission.new fd).write_buffered buffer).2.2) ∧
    (((FilePermission.new fd).write_buffered buffer).2.1).write_immediately
        osWrite =
      (.ok false, ((FilePermission.new fd).write_buffered buffer).2.1,
       false) ∧
    ((FilePermission.new fd).write_immediately (fun _ => .ok 0)).1 =
      .ok true ∧
    (((FilePermission.new fd).write_immediately
        (fun _ => .ok 0)).2.1).write_buffered buffer =
      (false,
       ((FilePermission.new fd).write_immediately (fun _ => .ok 0)).2.1,
       buffer) := by
  refine ⟨rfl, ?_, rfl, rfl, rfl, rfl, rfl⟩
  simp [FilePermission.write_buffered, FilePermission.new,
    Responses.write_buffered, FilePermission.response,
    RawFilePermission.toResponse, FanotifyResponse.bytes]

/-- The malformed buffer for the stall: 24 zero bytes declare
`event_len = 0`, so the cursor never advances and every step reports
`WrongVersion` again. -/
def zeroEventLenBuffer : List Nat := List.replicate 24 0

/-- C8 counterexample: on the all-zero 24-byte buffer the iterator yields an
item at every step forever — one malformed record with declared
`event_len = 0` stalls the iterator, refuting termination on every input. -/
theorem c8_zero_event_len_stalls_forever :
    yieldsForever 0 (Id.Pid 0) zeroEventLenBuffer := by
  have hstep : decodeStep 0 (Id.Pid 0) zeroEventLenBuffer 0 =
      (.error .WrongVersion, 0) := by decide
  intro n
  induction n with
  | zero => rfl
  | succ n ih =>
    simp only [runFuel]
    rw [if_neg (by decide)]
    simp [hstep, ih]

/-- C8 (amended): a decode error other than `TooShort(EventLenField)` leaves
the cursor advanced from the record's start by exactly the declared
`event_len` — which does not advance it at all when the declared length is
0.  On buffers in which every cursor position declares a nonzero
`event_len`, iteration does terminate: within `buf.length` steps the cursor
reaches the end of the buffer. -/
theorem c8_error_advance_and_termination (flags : Nat) (ownId : Id)
    (buf : List Nat)
    (hpos : ∀ i, i < buf.length → 0 < readU32 (buf.drop i) 0) :
    (∀ ix e, (decodeStep flags ownId buf ix).1 = .error e →
      (∀ f x, e ≠ .TooShort .EventLenField f x) →
      (decodeStep flags ownId buf ix).2 = ix + readU32 (buf.drop ix) 0) ∧
    buf.length ≤ iterCursor flags ownId buf buf.length :=
  ⟨fun ix e he hne => decodeStep_error_advance flags ownId buf ix e he hne,
   iterCursor_reaches_end flags ownId buf hpos⟩

theorem c8_error_advance_and_termination_witness :
    (∀ i, i < ([1] : List Nat).length → 0 < readU32 (([1] : List Nat).drop i) 0) ∧
    ((∀ ix e, (decodeStep 0 (Id.Pid 0) [1] ix).1 = .error e →
       (∀ f x, e ≠ .TooShort .EventLenField f x) →
       (decodeStep 0 (Id.Pid 0) [1] ix).2 = ix + readU32 (([1] : List Nat).drop ix) 0) ∧
     ([1] : List Nat).length ≤ iterCursor 0 (Id.Pid 0) [1] ([1] : List Nat).length) :=
  ⟨by decide, c8_error_advance_and_termination 0 (Id.Pid 0) [1] (by decide)⟩

/-- C9: decoding the raw configuration is total over arbitrary 32-bit
patterns: the notification-class index and the read-write index always fall
inside their four-element tables (so the masked lookups cannot go out of
range); the recovered `flags` and `event_flags` only keep defined bits
(unknown bits are truncated, not rejected); and the unused fourth table slot
maps the unrecognized bit combination to the default variant (`Notify`,
`Read`). -/
theorem c9_undo_raw_total (f ef : Nat) :
    RawInit.ncIndex ⟨f, ef⟩ < ncTable.length ∧
    RawInit.rwIndex ⟨f, ef⟩ < rwTable.length ∧
    ((RawInit.mk f ef).undo_raw).flags &&& Flags.allBits =
      ((RawInit.mk f ef).undo_raw).flags ∧
    ((RawInit.mk f ef).undo_raw).event_flags &&& EventFlags.allBits =
      ((RawInit.mk f ef).undo_raw).event_flags ∧
    RawInit.notification_class ⟨0b1100, 0⟩ = NotificationClass.Notify ∧
    RawInit.rw ⟨0, 0b11⟩ = ReadWrite.Read := by
  refine ⟨?_, ?_, ?_, ?_, by decide, by decide⟩
  · have h15 : f &&& 15 ≤ 15 := Nat.and_le_right
    unfold RawInit.ncIndex ncTable
    rw [Nat.shiftRight_eq_div_pow]
    simp only [List.length_cons, List.length_nil]
    omega
  · have h3 : ef &&& 3 ≤ 3 := Nat.and_le_right
    unfold RawInit.rwIndex rwTable
    simp only [List.length_cons, List.length_nil]
    omega
  · simp only [RawInit.undo_raw, RawInit.structuredFlags,
      Flags.fromBitsTruncate]
    rw [Nat.and_assoc, Nat.and_self]
  · simp only [RawInit.undo_raw, RawInit.structuredEventFlags,
      EventFlags.fromBitsTruncate]
    rw [Nat.and_assoc, Nat.and_self]

/-- C10: reading through the descriptor wrapper with an empty destination
and writing with an empty source both report 0 bytes without consulting the
operating system, a zero-capacity `Events::read` succeeds with an empty
events buffer, and iterating that empty buffer yields no events at all. -/
theorem c10_empty_reads_and_writes (osRead : Nat → Except Errno (List Nat))
    (osWrite : List Nat → Except Errno Nat) (flags : Nat) (ownId : Id)
    (fuel : Nat) :
    FD.read 0 osRead = (.ok (0, []), false) ∧
    FD.write [] osWrite = (.ok 0, false) ∧
    Events.read 0 osRead = (.ok [], false) ∧
    runFuel flags ownId [] fuel 0 = ([], 0) ∧
    EventIterator.next flags ownId [] 0 = none := by
  refine ⟨rfl, rfl, rfl, ?_, rfl⟩
  exact runFuel_done flags ownId [] 0 (by simp) fuel

end Fanotify
